import Mathlib

/-!
Verification of the jsonrpc package (vimagination.zapto.org/jsonrpc): a
shallow embedding of its client, server and combined client-server message
handling, with theorems checking the specification claims.

JSON payloads (json.RawMessage values) are opaque encoded byte strings and
are modelled as Lean String values.  Go maps keyed by int are modelled as
association lists over Int.  Channels and callback functions are given
identities (Nat tokens) so that delivery targets can be compared.
-/

namespace Jsonrpc

/-- Lookup in an association list modelling a Go map keyed by int. -/
def mapLookup {α : Type} : List (Int × α) → Int → Option α
| [], _ => none
| (k, v) :: rest, key => if k = key then some v else mapLookup rest key

/-- Deletion from an association list modelling a Go map (delete builtin). -/
def mapErase {α : Type} : List (Int × α) → Int → List (Int × α)
| [], _ => []
| (k, v) :: rest, key =>
  if k = key then mapErase rest key else (k, v) :: mapErase rest key

/-- Insertion into an association list modelling Go map assignment. -/
def mapInsert {α : Type} (m : List (Int × α)) (key : Int) (v : α) :
    List (Int × α) :=
  mapErase m key ++ [(key, v)]

/-- Modelled from the spec: the repository Error type (its defining file,
error.go, is not under src; the README documents it): code, message and
optional opaque data; equality is code, message and data all matching. -/
structure ErrorValue where
  Code : Int
  Message : String
  Data : Option String
deriving DecidableEq, Repr

/-- Embedding of clientResponse (client.go): id, raw result payload, and an
optional Error pointer. -/
structure clientResponse where
  ID : Int
  Result : String
  Error : Option ErrorValue
deriving DecidableEq, Repr

/-- Embedding of the wait entry type (client.go): the keep flag and the
callback, the latter by identity token. -/
structure wait where
  keep : Bool
  response : Nat
deriving DecidableEq, Repr

/-- The mutable state of a Client (client.go): nextID, the pending-request
map (channel identity per id), the wait map, and an allocator for fresh
channel identities modelling make of a channel. -/
structure ClientState where
  nextID : Int
  requests : List (Int × Nat)
  waits : List (Int × wait)
  freshCh : Nat
deriving DecidableEq, Repr

/-- The state NewClient builds (client.go lines 46-58): zero nextID and
empty maps. -/
def initialClient : ClientState :=
  { nextID := 0, requests := [], waits := [], freshCh := 0 }

/-- Where a decoded response is handed: either the channel of a pending
request, or the callback of a wait or subscribe registration. -/
inductive Delivery
| toRequest (ch : Nat) (resp : clientResponse)
| toWait (cb : Nat) (payload : String)
deriving DecidableEq, Repr

/-- Embedding of the respond loop body (client.go lines 67-83): a response
with nonnegative id is looked up in the pending-request map, the entry is
removed and the response is handed to its channel; a negative id is looked
up in the wait map, the entry is removed unless keep is set, and the raw
result payload is handed to the callback; otherwise nothing happens. -/
def handleResponse (s : ClientState) (resp : clientResponse) :
    ClientState × Option Delivery :=
  if 0 ≤ resp.ID then
    match mapLookup s.requests resp.ID with
    | some ch =>
      ({ s with requests := mapErase s.requests resp.ID },
       some (Delivery.toRequest ch resp))
    | none => (s, none)
  else
    match mapLookup s.waits resp.ID with
    | some w =>
      (if w.keep then s else { s with waits := mapErase s.waits resp.ID },
       some (Delivery.toWait w.response resp.Result))
    | none => (s, none)

/-- The respond loop (client.go lines 60-85) run over a list of decoded
responses, collecting the deliveries it makes. -/
def respondLoop : ClientState → List clientResponse →
    ClientState × List Delivery
| s, [] => (s, [])
| s, r :: rest =>
  ((respondLoop (handleResponse s r).1 rest).1,
   (handleResponse s r).2.toList ++ (respondLoop (handleResponse s r).1 rest).2)

/-- Embedding of the registration phase of Request (client.go lines 94-99):
allocate a fresh channel, take id from nextID, increment nextID, and record
the channel under id in the pending map.  Returns the id, the channel, and
the new state. -/
def requestRegister (s : ClientState) : Int × Nat × ClientState :=
  (s.nextID, s.freshCh,
   { s with
       nextID := s.nextID + 1
       requests := mapInsert s.requests s.nextID s.freshCh
       freshCh := s.freshCh + 1 })

/-- Embedding of the completion phase of Request (client.go lines 105-109):
the received response yields its Error on failure, else its raw Result. -/
def requestFinish (resp : clientResponse) : Except ErrorValue String :=
  match resp.Error with
  | some e => Except.error e
  | none => Except.ok resp.Result

/-- n consecutive Request registrations, returning the final state and the
list of (id, channel) pairs in call order. -/
def registerMany : ClientState → Nat → ClientState × List (Int × Nat)
| s, 0 => (s, [])
| s, n + 1 =>
  ((registerMany (requestRegister s).2.2 n).1,
   ((requestRegister s).1, (requestRegister s).2.1)
     :: (registerMany (requestRegister s).2.2 n).2)

/-- The client state after k Request registrations from the initial state:
ids 0..k-1 each mapped to the channel with the same index. -/
def stateAfter (k : Nat) : ClientState :=
  { nextID := (k : Int)
    requests := (List.range k).map (fun (i : Nat) => ((i : Int), i))
    waits := []
    freshCh := k }

/-- Embedding of the wait method (client.go lines 139-151): if the id is
already registered return ErrExisting and leave the state untouched, else
record the callback and keep flag under the id.  The Go error result is
modelled as an Option.  -/
inductive WaitError
| ErrExisting
deriving DecidableEq, Repr

/-- Embedding of the wait method body (client.go lines 139-151). -/
def clientWait (s : ClientState) (id : Int) (cb : Nat) (keep : Bool) :
    Option WaitError × ClientState :=
  match mapLookup s.waits id with
  | some _ => (some WaitError.ErrExisting, s)
  | none => (none, { s with waits := mapInsert s.waits id ⟨keep, cb⟩ })

/-- Embedding of Await (client.go lines 127-129): wait with keep false. -/
def Await (s : ClientState) (id : Int) (cb : Nat) :
    Option WaitError × ClientState :=
  clientWait s id cb false

/-- Embedding of Subscribe (client.go lines 135-137): wait with keep true. -/
def Subscribe (s : ClientState) (id : Int) (cb : Nat) :
    Option WaitError × ClientState :=
  clientWait s id cb true

/-- The synthetic response Close builds for every pending request
(client.go lines 156-162): zero id, no payload, Error with message
conn closed. -/
def connClosed : clientResponse :=
  { ID := 0, Result := ""
    Error := some { Code := 0, Message := "conn closed", Data := none } }

/-- Embedding of Close (client.go lines 154-165): every pending request
channel receives the synthetic conn closed response, then the underlying
connection is closed (the Bool records that the closer was invoked). -/
def Close (s : ClientState) : List (Nat × clientResponse) × Bool :=
  (s.requests.map (fun p => (p.2, connClosed)), true)

/-- Whether an optional delivery is a wait or subscribe callback firing. -/
def isToWait : Option Delivery → Bool
| some (Delivery.toWait _ _) => true
| _ => false

/-- A Go error value as seen by the server (rpc.go): either a pointer to
the structured Error type or any other error, identified by its message. -/
inductive GoError
| rpcError (e : ErrorValue)
| plain (msg : String)
deriving DecidableEq, Repr

/-- Modelled from the spec: the Error method of the Error type (error.go is
not under src); the message of a structured error is its message field. -/
def GoError.message : GoError → String
| GoError.rpcError e => e.Message
| GoError.plain m => m

/-- An interface-typed in-memory result value (rpc.go Response.Result),
following the spec design note: a pre-encoded payload, or a typed value to
be marshalled, or the nil interface. -/
inductive ResultValue
| null
| raw (data : String)
| num (n : Int)
| str (s : String)
deriving DecidableEq, Repr

/-- Embedding of the request frame type (rpc.go lines 108-112): method,
opaque params payload, and int id. -/
structure request where
  Method : String
  Params : String
  ID : Int
deriving DecidableEq, Repr

/-- Embedding of the Response type (rpc.go lines 114-119): int id, an
interface-typed result with omitempty, and a string error with omitempty. -/
structure Response where
  ID : Int
  Result : ResultValue
  Error : String
deriving DecidableEq, Repr

/-- Model of encoding/json marshalling of an in-memory result value: a
pre-encoded payload is passed through (empty payloads fail to marshal, as
an empty non-nil RawMessage does), numbers and strings are printed.  The
model assumes payloads are compact and contain no characters the encoder
would escape, which holds at every input evaluated here. -/
def marshalResult : ResultValue → Option String
| ResultValue.null => some "null"
| ResultValue.raw d => if d = "" then none else some d
| ResultValue.num n => some (toString n)
| ResultValue.str s => some ("\"" ++ s ++ "\"")

/-- Model of json.Encoder.Encode applied to a Response (the generic marshal
path of Send, rpc.go line 187): the object with the id field, the result
field when the result interface is non-nil, the error field when the error
string is non-empty, followed by the newline the encoder appends.  String
contents are assumed free of characters the encoder would escape. -/
def encodeResponse (resp : Response) : Option String :=
  match resp.Result with
  | ResultValue.null =>
    some ("\x7b\"id\":" ++ toString resp.ID
      ++ (if resp.Error = "" then "" else ",\"error\":\"" ++ resp.Error ++ "\"")
      ++ "\x7d\n")
  | r =>
    match marshalResult r with
    | some enc =>
      some ("\x7b\"id\":" ++ toString resp.ID ++ ",\"result\":" ++ enc
        ++ (if resp.Error = "" then "" else ",\"error\":\"" ++ resp.Error ++ "\"")
        ++ "\x7d\n")
    | none => none

/-- Embedding of the jsonHead constant (rpc.go line 193), byte for byte:
an opening parenthesis, a quoted id key and a colon. -/
def jsonHead : String := "(\"id\":"

/-- Embedding of the jsonMid constant (rpc.go line 194). -/
def jsonMid : String := ",\"result\":"

/-- Embedding of the jsonTail constant (rpc.go line 195): a closing brace. -/
def jsonTail : String := "\x7d"

/-- Embedding of sendJSON (rpc.go lines 198-212): writes jsonHead, the
decimal id, jsonMid, the payload bytes verbatim, and jsonTail.  The writer
is modelled as infallible, so the output is the concatenation. -/
def sendJSON (id : Int) (data : String) : String :=
  jsonHead ++ toString id ++ jsonMid ++ data ++ jsonTail

/-- Embedding of Send (rpc.go lines 182-190): when the result is a
pre-encoded payload and the error string is empty, take the sendJSON fast
path; otherwise encode the whole Response generically. -/
def Send (resp : Response) : Option String :=
  match resp.Result with
  | ResultValue.raw rm =>
    if resp.Error = "" then some (sendJSON resp.ID rm) else encodeResponse resp
  | _ => encodeResponse resp

/-- Embedding of handleRequest (rpc.go lines 171-179): build a Response
with the request id, store the handler result (assigned on both branches
by the multiple assignment), and on a non-nil error store the error
message string in the Error field; then Send it. -/
def handleRequest (handler : String → String → ResultValue × Option GoError)
    (req : request) : Option String :=
  let hr := handler req.Method req.Params
  Send { ID := req.ID
         Result := hr.1
         Error := match hr.2 with
                  | some e => e.message
                  | none => "" }

/-- Modelled from the spec: the wire shape of a structured error response,
with the error object carrying code, message and optional data. -/
def specErrorFrame (id : Int) (e : ErrorValue) : String :=
  "\x7b\"id\":" ++ toString id ++ ",\"error\":\x7b\"code\":" ++ toString e.Code
    ++ ",\"message\":\"" ++ e.Message ++ "\""
    ++ (match e.Data with
        | some d => ",\"data\":" ++ d
        | none => "")
    ++ "\x7d\x7d\n"

/-- The request part of a combined-connection frame (clientserver.go line
42, the embedded request): method, params, and the raw id payload, which a
dispatching peer passes through verbatim. -/
structure rawRequest where
  Method : String
  Params : String
  ID : String
deriving DecidableEq, Repr

/-- Embedding of requestOrResponse (clientserver.go lines 41-45): the
request fields together with the raw result payload and optional Error of
a response frame. -/
structure requestOrResponse extends rawRequest where
  Result : String
  Error : Option ErrorValue
deriving DecidableEq, Repr

/-- Decimal digits to a number, none when empty or non-digit. -/
def parseDigits (cs : List Char) : Option Nat :=
  if cs = [] then none
  else if cs.all (fun c => c.isDigit) then
    some (cs.foldl (fun a c => a * 10 + (c.toNat - 48)) 0)
  else none

/-- Model of json.Unmarshal of a raw id payload into an int local that
starts at zero (clientserver.go lines 63-65): a JSON integer parses to its
value; any failure is ignored and the local keeps its zero value. -/
def unmarshalInt (s : String) : Int :=
  match s.toList with
  | '-' :: rest =>
    match parseDigits rest with
    | some n => -(n : Int)
    | none => 0
  | cs =>
    match parseDigits cs with
    | some n => (n : Int)
    | none => 0

/-- What the ClientServer Handle loop does with one decoded frame: hand it
to the server side as a request, or route it as a response. -/
inductive FrameOutcome
| dispatched (req : rawRequest)
| routed (d : Option Delivery)
deriving DecidableEq, Repr

/-- Embedding of the per-frame body of the ClientServer Handle loop
(clientserver.go lines 60-72): a frame with a non-empty method is
dispatched to the server handler as an inbound request, carrying its
request part verbatim; otherwise its id payload is unmarshalled and the
frame is routed as an inbound response through handleResponse. -/
def handleFrame (s : ClientState) (f : requestOrResponse) :
    ClientState × FrameOutcome :=
  if f.Method ≠ "" then
    (s, FrameOutcome.dispatched f.torawRequest)
  else
    ((handleResponse s
        { ID := unmarshalInt f.ID, Result := f.Result, Error := f.Error }).1,
     FrameOutcome.routed
       (handleResponse s
         { ID := unmarshalInt f.ID, Result := f.Result, Error := f.Error }).2)

theorem mapLookup_eq_none {α : Type} (m : List (Int × α)) (k : Int)
    (h : ∀ p ∈ m, p.1 ≠ k) : mapLookup m k = none := by
  induction m with
  | nil => rfl
  | cons p rest ih =>
    simp only [mapLookup]
    rw [if_neg (h p (List.mem_cons_self p rest))]
    exact ih (fun q hq => h q (List.mem_cons_of_mem p hq))

theorem mapLookup_append {α : Type} (l1 l2 : List (Int × α)) (k : Int) :
    mapLookup (l1 ++ l2) k
      = match mapLookup l1 k with
        | some v => some v
        | none => mapLookup l2 k := by
  induction l1 with
  | nil => rfl
  | cons p rest ih =>
    by_cases hp : p.1 = k
    · simp [mapLookup, hp]
    · simp only [List.cons_append, mapLookup, if_neg hp]
      exact ih

theorem mapLookup_erase {α : Type} (m : List (Int × α)) (k k2 : Int) :
    mapLookup (mapErase m k) k2 = if k2 = k then none else mapLookup m k2 := by
  induction m with
  | nil => simp [mapErase, mapLookup]
  | cons p rest ih =>
    simp only [mapErase]
    by_cases hp : p.1 = k
    · rw [if_pos hp, ih]
      by_cases hk : k2 = k
      · rw [if_pos hk, if_pos hk]
      · rw [if_neg hk, if_neg hk]
        simp only [mapLookup]
        have hpk2 : ¬ p.1 = k2 := by
          rw [hp]
          exact fun h2 => hk h2.symm
        rw [if_neg hpk2]
    · rw [if_neg hp]
      simp only [mapLookup]
      by_cases hq : p.1 = k2
      · have hk : ¬ k2 = k := fun h2 => hp (hq.trans h2)
        rw [if_pos hq, if_neg hk, if_pos hq]
      · rw [if_neg hq, ih]
        by_cases hk : k2 = k
        · rw [if_pos hk, if_pos hk]
        · rw [if_neg hk, if_neg hk, if_neg hq]

theorem mapErase_of_absent {α : Type} (m : List (Int × α)) (k : Int)
    (h : ∀ p ∈ m, p.1 ≠ k) : mapErase m k = m := by
  induction m with
  | nil => rfl
  | cons p rest ih =>
    simp only [mapErase]
    rw [if_neg (h p (List.mem_cons_self p rest)),
        ih (fun q hq => h q (List.mem_cons_of_mem p hq))]

theorem mapLookup_insert {α : Type} (m : List (Int × α)) (k : Int) (v : α)
    (k2 : Int) :
    mapLookup (mapInsert m k v) k2
      = if k2 = k then some v else mapLookup m k2 := by
  rw [mapInsert, mapLookup_append, mapLookup_erase]
  by_cases hk : k2 = k
  · rw [if_pos hk, if_pos hk]
    subst hk
    simp [mapLookup]
  · rw [if_neg hk, if_neg hk]
    cases hm : mapLookup m k2 with
    | none =>
      simp only [mapLookup]
      rw [if_neg (fun h2 : k = k2 => hk h2.symm)]
    | some w => rfl

theorem mapLookup_mem {α : Type} (m : List (Int × α)) (k : Int) (v : α)
    (h : mapLookup m k = some v) : (k, v) ∈ m := by
  induction m with
  | nil => simp [mapLookup] at h
  | cons p rest ih =>
    simp only [mapLookup] at h
    by_cases hp : p.1 = k
    · rw [if_pos hp] at h
      refine List.mem_cons.mpr (Or.inl ?_)
      cases p with
    | mk a b =>
      have hb : b = v := Option.some.inj h
      simp only at hp
      rw [Prod.mk.injEq]
      exact ⟨hp.symm, hb.symm⟩
    · rw [if_neg hp] at h
      exact List.mem_cons_of_mem p (ih h)

theorem initialClient_eq : initialClient = stateAfter 0 := rfl

theorem lookup_stateAfter (n i : Nat) (h : i < n) :
    mapLookup (stateAfter n).requests (i : Int) = some i := by
  induction n with
  | zero => omega
  | succ m ih =>
    show mapLookup ((List.range (m + 1)).map
      (fun (j : Nat) => ((j : Int), j))) (i : Int) = some i
    rw [List.range_succ, List.map_append, mapLookup_append]
    by_cases hi : i < m
    · have ih2 : mapLookup ((List.range m).map
          (fun (j : Nat) => ((j : Int), j))) (i : Int) = some i := ih hi
      rw [ih2]
    · have hieq : i = m := by omega
      subst hieq
      have hnone : mapLookup ((List.range i).map
          (fun (j : Nat) => ((j : Int), j))) (i : Int) = none := by
        apply mapLookup_eq_none
        intro p hp
        simp only [List.mem_map, List.mem_range] at hp
        obtain ⟨j, hj, hpj⟩ := hp
        rw [← hpj]
        intro hc
        simp only [Int.natCast_inj] at hc
        omega
      rw [hnone]
      simp [mapLookup]

theorem registerMany_stateAfter (n : Nat) : ∀ k : Nat,
    registerMany (stateAfter k) n
      = (stateAfter (k + n),
         (List.range' k n).map (fun (i : Nat) => ((i : Int), i))) := by
  induction n with
  | zero => intro k; rfl
  | succ m ih =>
    intro k
    have hstep : (requestRegister (stateAfter k)).2.2 = stateAfter (k + 1) := by
      show ClientState.mk ((k : Int) + 1)
          (mapInsert (stateAfter k).requests ((k : Nat) : Int) k) [] (k + 1)
        = stateAfter (k + 1)
      have hreq : mapInsert (stateAfter k).requests ((k : Nat) : Int) k
          = (stateAfter (k + 1)).requests := by
        show mapErase (stateAfter k).requests ((k : Nat) : Int)
            ++ [(((k : Nat) : Int), k)] = (stateAfter (k + 1)).requests
        rw [mapErase_of_absent]
        · show (List.range k).map (fun (i : Nat) => ((i : Int), i))
              ++ [(((k : Nat) : Int), k)]
            = (List.range (k + 1)).map (fun (i : Nat) => ((i : Int), i))
          rw [List.range_succ, List.map_append]
          rfl
        · intro p hp
          simp only [stateAfter, List.mem_map, List.mem_range] at hp
          obtain ⟨j, hj, hpj⟩ := hp
          rw [← hpj]
          intro hc
          simp only [Int.natCast_inj] at hc
          omega
      rw [hreq]
      have hcast : ((k : Int) + 1) = (((k + 1 : Nat)) : Int) := by omega
      rw [hcast]
      rfl
    show ((registerMany (requestRegister (stateAfter k)).2.2 m).1,
          ((requestRegister (stateAfter k)).1,
            (requestRegister (stateAfter k)).2.1)
            :: (registerMany (requestRegister (stateAfter k)).2.2 m).2)
        = _
    rw [hstep, ih (k + 1)]
    have hk2 : k + 1 + m = k + (m + 1) := by omega
    rw [hk2]
    rfl

theorem respondLoop_deliver (rs : List clientResponse) : ∀ s : ClientState,
    rs.Pairwise (fun a b => a.ID ≠ b.ID) →
    (∀ r ∈ rs, 0 ≤ r.ID ∧ mapLookup s.requests r.ID = some r.ID.toNat) →
    (respondLoop s rs).2
        = rs.map (fun r => Delivery.toRequest r.ID.toNat r)
    ∧ (∀ r ∈ rs, mapLookup (respondLoop s rs).1.requests r.ID = none)
    ∧ (∀ id : Int, (∀ r ∈ rs, r.ID ≠ id) →
        mapLookup (respondLoop s rs).1.requests id
          = mapLookup s.requests id) := by
  induction rs with
  | nil =>
    intro s _ _
    refine ⟨rfl, ?_, ?_⟩
    · intro r hr; cases hr
    · intro id _; rfl
  | cons x rest ih =>
    intro s hpair hpres
    have hx0 := hpres x (List.mem_cons_self x rest)
    have hstep : handleResponse s x
        = ({ s with requests := mapErase s.requests x.ID },
           some (Delivery.toRequest x.ID.toNat x)) := by
      rw [handleResponse, if_pos hx0.1, hx0.2]
    have hpair2 : rest.Pairwise (fun a b => a.ID ≠ b.ID) :=
      (List.pairwise_cons.mp hpair).2
    have hne : ∀ q ∈ rest, x.ID ≠ q.ID :=
      (List.pairwise_cons.mp hpair).1
    have hpres2 : ∀ q ∈ rest, 0 ≤ q.ID ∧
        mapLookup ({ s with requests := mapErase s.requests x.ID } :
          ClientState).requests q.ID = some q.ID.toNat := by
      intro q hq
      refine ⟨(hpres q (List.mem_cons_of_mem x hq)).1, ?_⟩
      show mapLookup (mapErase s.requests x.ID) q.ID = some q.ID.toNat
      rw [mapLookup_erase, if_neg (fun h2 => hne q hq h2.symm)]
      exact (hpres q (List.mem_cons_of_mem x hq)).2
    obtain ⟨ihd, ihgone, ihother⟩ :=
      ih { s with requests := mapErase s.requests x.ID } hpair2 hpres2
    refine ⟨?_, ?_, ?_⟩
    · show (handleResponse s x).2.toList
          ++ (respondLoop (handleResponse s x).1 rest).2
        = _
      rw [hstep]
      show Delivery.toRequest x.ID.toNat x
          :: (respondLoop { s with requests := mapErase s.requests x.ID }
              rest).2
        = _
      rw [ihd]
      rfl
    · intro q hq
      show mapLookup (respondLoop (handleResponse s x).1 rest).1.requests
          q.ID = none
      rw [hstep]
      rcases List.mem_cons.mp hq with hq1 | hq2
      · subst hq1
        rw [ihother q.ID (fun y hy => (hne y hy).symm)]
        show mapLookup (mapErase s.requests q.ID) q.ID = none
        rw [mapLookup_erase, if_pos rfl]
      · exact ihgone q hq2
    · intro id hid
      show mapLookup (respondLoop (handleResponse s x).1 rest).1.requests id
          = mapLookup s.requests id
      rw [hstep]
      rw [ihother id (fun y hy => hid y (List.mem_cons_of_mem x hy))]
      show mapLookup (mapErase s.requests x.ID) id = mapLookup s.requests id
      rw [mapLookup_erase,
          if_neg (fun h2 => hid x (List.mem_cons_self x rest) h2.symm)]

theorem respondLoop_keep (id : Int) (cb : Nat) (hneg : id < 0)
    (rsAll : List clientResponse) : ∀ t : ClientState,
    (∀ x ∈ rsAll, x.ID = id) →
    mapLookup t.waits id = some ⟨true, cb⟩ →
    respondLoop t rsAll
      = (t, rsAll.map (fun x => Delivery.toWait cb x.Result)) := by
  induction rsAll with
  | nil =>
    intro t _ _
    rfl
  | cons x rest ih =>
    intro t hall hlook
    have hx : x.ID = id := hall x (List.mem_cons_self x rest)
    have hstep : handleResponse t x
        = (t, some (Delivery.toWait cb x.Result)) := by
      rw [handleResponse, if_neg (show ¬ 0 ≤ x.ID by omega), hx, hlook]
      simp
    show ((respondLoop (handleResponse t x).1 rest).1,
          (handleResponse t x).2.toList
            ++ (respondLoop (handleResponse t x).1 rest).2)
        = _
    rw [hstep]
    rw [ih t (fun y hy => hall y (List.mem_cons_of_mem x hy)) hlook]
    rfl

/-- Claim C1: on every Client, Request calls are assigned ids ascending
from 0, each id keys at most one outstanding pending entry, and for any
list of distinct-id responses arriving in any order, each response is
delivered exactly to the channel registered under its id, the pending
entry is removed on delivery, and the caller obtains the raw result
payload on success or the Error on failure. -/
theorem Request_correlation (n : Nat) (rs : List clientResponse)
    (hdist : rs.Pairwise (fun a b => a.ID ≠ b.ID))
    (hrange : ∀ r ∈ rs, 0 ≤ r.ID ∧ r.ID < (n : Int)) :
    (registerMany initialClient n).2.map Prod.fst
        = (List.range n).map (fun (i : Nat) => (i : Int))
    ∧ ((registerMany initialClient n).1.requests.map Prod.fst).Nodup
    ∧ (respondLoop (registerMany initialClient n).1 rs).2
        = rs.map (fun r => Delivery.toRequest r.ID.toNat r)
    ∧ (∀ r ∈ rs, mapLookup
        (respondLoop (registerMany initialClient n).1 rs).1.requests r.ID
        = none)
    ∧ (∀ r ∈ rs,
        (∀ e, r.Error = some e → requestFinish r = Except.error e)
        ∧ (r.Error = none → requestFinish r = Except.ok r.Result)) := by
  have hreg : registerMany initialClient n
      = (stateAfter n,
         (List.range n).map (fun (i : Nat) => ((i : Int), i))) := by
    rw [initialClient_eq, registerMany_stateAfter n 0, Nat.zero_add,
        ← List.range_eq_range']
  have hpres : ∀ r ∈ rs, 0 ≤ r.ID ∧
      mapLookup (stateAfter n).requests r.ID = some r.ID.toNat := by
    intro r hr
    obtain ⟨h0, hlt⟩ := hrange r hr
    refine ⟨h0, ?_⟩
    have h2 : r.ID.toNat < n := by omega
    have h3 := lookup_stateAfter n r.ID.toNat h2
    rw [Int.toNat_of_nonneg h0] at h3
    exact h3
  obtain ⟨hd, hgone, _⟩ := respondLoop_deliver rs (stateAfter n) hdist hpres
  refine ⟨?_, ?_, ?_, ?_, ?_⟩
  · rw [hreg]
    show ((List.range n).map (fun (i : Nat) => ((i : Int), i))).map Prod.fst
        = _
    rw [List.map_map]
    rfl
  · rw [hreg]
    show (((List.range n).map
      (fun (i : Nat) => ((i : Int), i))).map Prod.fst).Nodup
    rw [List.map_map]
    exact List.Nodup.map (fun a b h2 => Int.natCast_inj.mp h2)
      (List.nodup_range n)
  · rw [hreg]
    exact hd
  · rw [hreg]
    exact hgone
  · intro r _
    constructor
    · intro e he
      simp [requestFinish, he]
    · intro he
      simp [requestFinish, he]

/-- Concrete instantiation of Request_correlation: two registrations, the
two responses arriving in reversed order, one failing. -/
theorem Request_correlation_witness :
    (registerMany initialClient 2).2.map Prod.fst
        = (List.range 2).map (fun (i : Nat) => (i : Int))
    ∧ ((registerMany initialClient 2).1.requests.map Prod.fst).Nodup
    ∧ (respondLoop (registerMany initialClient 2).1
          [⟨1, "11", none⟩, ⟨0, "", some ⟨7, "bad", none⟩⟩]).2
        = ([⟨1, "11", none⟩, ⟨0, "", some ⟨7, "bad", none⟩⟩] :
            List clientResponse).map
            (fun r => Delivery.toRequest r.ID.toNat r)
    ∧ (∀ r ∈ ([⟨1, "11", none⟩, ⟨0, "", some ⟨7, "bad", none⟩⟩] :
          List clientResponse),
        mapLookup (respondLoop (registerMany initialClient 2).1
          [⟨1, "11", none⟩, ⟨0, "", some ⟨7, "bad", none⟩⟩]).1.requests r.ID
          = none)
    ∧ (∀ r ∈ ([⟨1, "11", none⟩, ⟨0, "", some ⟨7, "bad", none⟩⟩] :
          List clientResponse),
        (∀ e, r.Error = some e → requestFinish r = Except.error e)
        ∧ (r.Error = none → requestFinish r = Except.ok r.Result)) :=
  Request_correlation 2 [⟨1, "11", none⟩, ⟨0, "", some ⟨7, "bad", none⟩⟩]
    (by decide) (by decide)

/-- Claim C4: Close completes every still-pending Request call with the
synthetic conn closed Error, so no such caller blocks forever, and then
the underlying connection is closed. -/
theorem Close_completes_pending (s : ClientState) (id : Int) (ch : Nat)
    (h : mapLookup s.requests id = some ch) :
    (ch, connClosed) ∈ (Close s).1
    ∧ requestFinish connClosed
        = Except.error { Code := 0, Message := "conn closed", Data := none }
    ∧ (Close s).2 = true := by
  refine ⟨?_, rfl, rfl⟩
  have hm : (id, ch) ∈ s.requests := mapLookup_mem s.requests id ch h
  show (ch, connClosed) ∈ s.requests.map (fun p => (p.2, connClosed))
  exact List.mem_map.mpr ⟨(id, ch), hm, rfl⟩

/-- Concrete instantiation of Close_completes_pending: one pending call on
id 0 with channel 5. -/
theorem Close_completes_pending_witness :
    (5, connClosed) ∈ (Close ⟨1, [(0, 5)], [], 1⟩).1
    ∧ requestFinish connClosed
        = Except.error { Code := 0, Message := "conn closed", Data := none }
    ∧ (Close ⟨1, [(0, 5)], [], 1⟩).2 = true :=
  Close_completes_pending ⟨1, [(0, 5)], [], 1⟩ 0 5 (by decide)

/-- Claim C6: calling Await or Subscribe (or the underlying wait) on an id
that already has a registered entry returns the existing waiter error and
leaves the registration state unchanged: the first registration, with its
callback and keep flag, remains active. -/
theorem wait_duplicate (s : ClientState) (id : Int) (w : wait)
    (cb2 : Nat) (k2 : Bool) (h : mapLookup s.waits id = some w) :
    clientWait s id cb2 k2 = (some WaitError.ErrExisting, s)
    ∧ Await s id cb2 = (some WaitError.ErrExisting, s)
    ∧ Subscribe s id cb2 = (some WaitError.ErrExisting, s)
    ∧ mapLookup (clientWait s id cb2 k2).2.waits id = some w := by
  have hc : ∀ kk : Bool,
      clientWait s id cb2 kk = (some WaitError.ErrExisting, s) := by
    intro kk
    rw [clientWait, h]
  refine ⟨hc k2, hc false, hc true, ?_⟩
  rw [hc k2]
  exact h

/-- Concrete instantiation of wait_duplicate: id -1 already registered with
keep false and callback 3; a second registration with callback 9 fails. -/
theorem wait_duplicate_witness :
    clientWait ⟨0, [], [(-1, ⟨false, 3⟩)], 0⟩ (-1) 9 true
        = (some WaitError.ErrExisting, ⟨0, [], [(-1, ⟨false, 3⟩)], 0⟩)
    ∧ Await ⟨0, [], [(-1, ⟨false, 3⟩)], 0⟩ (-1) 9
        = (some WaitError.ErrExisting, ⟨0, [], [(-1, ⟨false, 3⟩)], 0⟩)
    ∧ Subscribe ⟨0, [], [(-1, ⟨false, 3⟩)], 0⟩ (-1) 9
        = (some WaitError.ErrExisting, ⟨0, [], [(-1, ⟨false, 3⟩)], 0⟩)
    ∧ mapLookup (clientWait ⟨0, [], [(-1, ⟨false, 3⟩)], 0⟩ (-1) 9 true).2.waits
        (-1) = some ⟨false, 3⟩ :=
  wait_duplicate ⟨0, [], [(-1, ⟨false, 3⟩)], 0⟩ (-1) ⟨false, 3⟩ 9 true
    (by decide)

/-- Claim C9: a decoded response whose id matches neither a pending call
nor a wait or subscribe registration is silently dropped: the state is
unchanged, nothing is delivered, and the read loop continues exactly as if
the response had not arrived. -/
theorem unmatched_dropped (s : ClientState) (r : clientResponse)
    (rest : List clientResponse)
    (h : if 0 ≤ r.ID then mapLookup s.requests r.ID = none
         else mapLookup s.waits r.ID = none) :
    handleResponse s r = (s, none)
    ∧ respondLoop s (r :: rest) = respondLoop s rest := by
  have h1 : handleResponse s r = (s, none) := by
    by_cases hid : 0 ≤ r.ID
    · rw [if_pos hid] at h
      rw [handleResponse, if_pos hid, h]
    · rw [if_neg hid] at h
      rw [handleResponse, if_neg hid, h]
  refine ⟨h1, ?_⟩
  show ((respondLoop (handleResponse s r).1 rest).1,
        (handleResponse s r).2.toList
          ++ (respondLoop (handleResponse s r).1 rest).2)
      = respondLoop s rest
  rw [h1]
  simp [Option.toList]

/-- Concrete instantiation of unmatched_dropped: a response with id 3 while
only id 0 is pending and only id -2 is registered. -/
theorem unmatched_dropped_witness :
    handleResponse ⟨5, [(0, 1)], [(-2, ⟨true, 3⟩)], 9⟩ ⟨3, "x", none⟩
        = (⟨5, [(0, 1)], [(-2, ⟨true, 3⟩)], 9⟩, none)
    ∧ respondLoop ⟨5, [(0, 1)], [(-2, ⟨true, 3⟩)], 9⟩
          (⟨3, "x", none⟩ :: [⟨-2, "q", none⟩])
        = respondLoop ⟨5, [(0, 1)], [(-2, ⟨true, 3⟩)], 9⟩ [⟨-2, "q", none⟩] :=
  unmatched_dropped ⟨5, [(0, 1)], [(-2, ⟨true, 3⟩)], 9⟩ ⟨3, "x", none⟩
    [⟨-2, "q", none⟩] (by decide)

/-- Claim C10: Await and Subscribe validate nothing about the sign of the
id: any unregistered nonnegative id is accepted and stored in the wait
map, yet the read loop routes every response with nonnegative id
exclusively to the pending-call map, never firing a wait callback and
never touching the wait map. -/
theorem wait_no_sign_check (s t : ClientState) (id : Int) (cb : Nat)
    (r : clientResponse) (_hid : 0 ≤ id)
    (hfree : mapLookup s.waits id = none) (hr : 0 ≤ r.ID) :
    Await s id cb
        = (none, { s with waits := mapInsert s.waits id ⟨false, cb⟩ })
    ∧ Subscribe s id cb
        = (none, { s with waits := mapInsert s.waits id ⟨true, cb⟩ })
    ∧ (handleResponse t r).1.waits = t.waits
    ∧ isToWait (handleResponse t r).2 = false := by
  refine ⟨?_, ?_, ?_, ?_⟩
  · rw [Await, clientWait, hfree]
  · rw [Subscribe, clientWait, hfree]
  · rw [handleResponse, if_pos hr]
    cases hm : mapLookup t.requests r.ID with
    | some ch => rfl
    | none => rfl
  · rw [handleResponse, if_pos hr]
    cases hm : mapLookup t.requests r.ID with
    | some ch => rfl
    | none => rfl

/-- Concrete instantiation of wait_no_sign_check: Await and Subscribe
accept the nonnegative id 3, and a response with id 3 is routed to the
pending map only, even though id 3 carries a wait registration. -/
theorem wait_no_sign_check_witness :
    Await initialClient 3 9
        = (none, { initialClient with
             waits := mapInsert initialClient.waits 3 ⟨false, 9⟩ })
    ∧ Subscribe initialClient 3 9
        = (none, { initialClient with
             waits := mapInsert initialClient.waits 3 ⟨true, 9⟩ })
    ∧ (handleResponse ⟨0, [(2, 6)], [(3, ⟨false, 9⟩)], 1⟩
          ⟨3, "x", none⟩).1.waits
        = (⟨0, [(2, 6)], [(3, ⟨false, 9⟩)], 1⟩ : ClientState).waits
    ∧ isToWait (handleResponse ⟨0, [(2, 6)], [(3, ⟨false, 9⟩)], 1⟩
          ⟨3, "x", none⟩).2 = false :=
  wait_no_sign_check initialClient ⟨0, [(2, 6)], [(3, ⟨false, 9⟩)], 1⟩ 3 9
    ⟨3, "x", none⟩ (by decide) (by decide) (by decide)

/-- Claim C5: for a negative id, an Await registration is removed before
its callback is invoked with the raw result payload of the next matching
response, and any later response with that id finds no entry; a Subscribe
registration fires its callback once per matching response and is never
removed by delivery. -/
theorem await_subscribe_delivery (s s1 s2 : ClientState) (id : Int)
    (cb : Nat) (r r2 : clientResponse) (rsAll : List clientResponse)
    (hneg : id < 0) (hr : r.ID = id) (hr2 : r2.ID = id)
    (hall : ∀ x ∈ rsAll, x.ID = id)
    (hA : Await s id cb = (none, s1))
    (hS : Subscribe s id cb = (none, s2)) :
    handleResponse s1 r
        = ({ s1 with waits := mapErase s1.waits id },
           some (Delivery.toWait cb r.Result))
    ∧ mapLookup (handleResponse s1 r).1.waits id = none
    ∧ handleResponse (handleResponse s1 r).1 r2
        = ((handleResponse s1 r).1, none)
    ∧ respondLoop s2 rsAll
        = (s2, rsAll.map (fun x => Delivery.toWait cb x.Result)) := by
  have hfree : mapLookup s.waits id = none := by
    cases hm : mapLookup s.waits id with
    | none => rfl
    | some w =>
      rw [Await, clientWait, hm] at hA
      exact Option.noConfusion (congrArg Prod.fst hA)
  have hs1 : s1 = { s with waits := mapInsert s.waits id ⟨false, cb⟩ } := by
    rw [Await, clientWait, hfree] at hA
    exact (congrArg Prod.snd hA).symm
  have hs2 : s2 = { s with waits := mapInsert s.waits id ⟨true, cb⟩ } := by
    rw [Subscribe, clientWait, hfree] at hS
    exact (congrArg Prod.snd hS).symm
  subst hs1
  subst hs2
  have hlookA : mapLookup ({ s with
      waits := mapInsert s.waits id ⟨false, cb⟩ } : ClientState).waits id
      = some ⟨false, cb⟩ := by
    show mapLookup (mapInsert s.waits id ⟨false, cb⟩) id = some ⟨false, cb⟩
    rw [mapLookup_insert, if_pos rfl]
  have h1 : handleResponse ({ s with
      waits := mapInsert s.waits id ⟨false, cb⟩ } : ClientState) r
      = ({ s with waits := mapErase (mapInsert s.waits id ⟨false, cb⟩) id },
         some (Delivery.toWait cb r.Result)) := by
    rw [handleResponse, if_neg (show ¬ 0 ≤ r.ID by omega), hr, hlookA]
    simp
  have hlookE : mapLookup ({ s with
      waits := mapErase (mapInsert s.waits id ⟨false, cb⟩) id } :
        ClientState).waits id = none := by
    show mapLookup (mapErase (mapInsert s.waits id ⟨false, cb⟩) id) id = none
    rw [mapLookup_erase, if_pos rfl]
  have hlookS : mapLookup ({ s with
      waits := mapInsert s.waits id ⟨true, cb⟩ } : ClientState).waits id
      = some ⟨true, cb⟩ := by
    show mapLookup (mapInsert s.waits id ⟨true, cb⟩) id = some ⟨true, cb⟩
    rw [mapLookup_insert, if_pos rfl]
  refine ⟨h1, ?_, ?_, ?_⟩
  · rw [h1]
    exact hlookE
  · rw [h1]
    show handleResponse ({ s with
        waits := mapErase (mapInsert s.waits id ⟨false, cb⟩) id } :
          ClientState) r2
      = (({ s with
          waits := mapErase (mapInsert s.waits id ⟨false, cb⟩) id } :
            ClientState), none)
    rw [handleResponse, if_neg (show ¬ 0 ≤ r2.ID by omega), hr2, hlookE]
  · exact respondLoop_keep id cb hneg rsAll
      { s with waits := mapInsert s.waits id ⟨true, cb⟩ } hall hlookS

/-- Concrete instantiation of await_subscribe_delivery: id -1, callback 7,
responses with payloads 5 and 6. -/
theorem await_subscribe_delivery_witness :
    handleResponse ⟨0, [], [(-1, ⟨false, 7⟩)], 0⟩ ⟨-1, "5", none⟩
        = ({ (⟨0, [], [(-1, ⟨false, 7⟩)], 0⟩ : ClientState) with
               waits := mapErase
                 (⟨0, [], [(-1, ⟨false, 7⟩)], 0⟩ : ClientState).waits (-1) },
           some (Delivery.toWait 7 "5"))
    ∧ mapLookup (handleResponse ⟨0, [], [(-1, ⟨false, 7⟩)], 0⟩
          ⟨-1, "5", none⟩).1.waits (-1) = none
    ∧ handleResponse
          (handleResponse ⟨0, [], [(-1, ⟨false, 7⟩)], 0⟩ ⟨-1, "5", none⟩).1
          ⟨-1, "6", none⟩
        = ((handleResponse ⟨0, [], [(-1, ⟨false, 7⟩)], 0⟩
            ⟨-1, "5", none⟩).1, none)
    ∧ respondLoop ⟨0, [], [(-1, ⟨true, 7⟩)], 0⟩
          [⟨-1, "5", none⟩, ⟨-1, "6", none⟩]
        = (⟨0, [], [(-1, ⟨true, 7⟩)], 0⟩,
           ([⟨-1, "5", none⟩, ⟨-1, "6", none⟩] :
             List clientResponse).map
             (fun x => Delivery.toWait 7 x.Result)) :=
  await_subscribe_delivery initialClient
    ⟨0, [], [(-1, ⟨false, 7⟩)], 0⟩ ⟨0, [], [(-1, ⟨true, 7⟩)], 0⟩ (-1) 7
    ⟨-1, "5", none⟩ ⟨-1, "6", none⟩ [⟨-1, "5", none⟩, ⟨-1, "6", none⟩]
    (by decide) (by decide) (by decide) (by decide) (by decide) (by decide)

/-- Claim C7: the ClientServer Handle loop classifies every decoded frame
solely by its method field: a non-empty method makes it an inbound request
dispatched to the server-side handler with its request part passed
through, and an empty or absent method makes it an inbound response,
routed by its unmarshalled id through handleResponse to the pending-call
map or the wait and subscribe registrations. -/
theorem Handle_classification (s : ClientState) (f : requestOrResponse) :
    (f.Method ≠ "" →
      handleFrame s f = (s, FrameOutcome.dispatched f.torawRequest))
    ∧ (f.Method = "" →
      handleFrame s f
        = ((handleResponse s
              { ID := unmarshalInt f.ID, Result := f.Result,
                Error := f.Error }).1,
           FrameOutcome.routed
             (handleResponse s
               { ID := unmarshalInt f.ID, Result := f.Result,
                 Error := f.Error }).2)) := by
  constructor
  · intro hm
    rw [handleFrame, if_pos hm]
  · intro hm
    rw [handleFrame, if_neg (fun hcon => hcon hm)]

/-- Concrete instantiation of Handle_classification: a frame with empty
method and raw id -1 is routed as a response to the subscription on -1. -/
theorem Handle_classification_witness :
    ((⟨⟨"", "", "-1"⟩, "7", none⟩ : requestOrResponse).Method ≠ "" →
      handleFrame ⟨0, [], [(-1, ⟨true, 4⟩)], 0⟩ ⟨⟨"", "", "-1"⟩, "7", none⟩
        = (⟨0, [], [(-1, ⟨true, 4⟩)], 0⟩,
           FrameOutcome.dispatched
             (⟨⟨"", "", "-1"⟩, "7", none⟩ :
               requestOrResponse).torawRequest))
    ∧ ((⟨⟨"", "", "-1"⟩, "7", none⟩ : requestOrResponse).Method = "" →
      handleFrame ⟨0, [], [(-1, ⟨true, 4⟩)], 0⟩ ⟨⟨"", "", "-1"⟩, "7", none⟩
        = ((handleResponse ⟨0, [], [(-1, ⟨true, 4⟩)], 0⟩
              { ID := unmarshalInt
                  (⟨⟨"", "", "-1"⟩, "7", none⟩ : requestOrResponse).ID,
                Result :=
                  (⟨⟨"", "", "-1"⟩, "7", none⟩ : requestOrResponse).Result,
                Error :=
                  (⟨⟨"", "", "-1"⟩, "7", none⟩ :
                    requestOrResponse).Error }).1,
           FrameOutcome.routed
             (handleResponse ⟨0, [], [(-1, ⟨true, 4⟩)], 0⟩
               { ID := unmarshalInt
                   (⟨⟨"", "", "-1"⟩, "7", none⟩ : requestOrResponse).ID,
                 Result :=
                   (⟨⟨"", "", "-1"⟩, "7", none⟩ :
                     requestOrResponse).Result,
                 Error :=
                   (⟨⟨"", "", "-1"⟩, "7", none⟩ :
                     requestOrResponse).Error }).2)) :=
  Handle_classification ⟨0, [], [(-1, ⟨true, 4⟩)], 0⟩
    ⟨⟨"", "", "-1"⟩, "7", none⟩

/-- Claim C2 is false on the code: the fast splice path writes the
jsonHead prefix whose first byte is an opening parenthesis, so its output
is not byte-identical to the generic marshal path for the same logical
content (which opens with a brace and ends with the encoder newline);
evaluated at id 0 with pre-encoded payload 11. -/
theorem sendJSON_head_mismatch :
    sendJSON 0 "11" = "(\"id\":0,\"result\":11\x7d"
    ∧ encodeResponse { ID := 0, Result := ResultValue.raw "11", Error := "" }
        = some "\x7b\"id\":0,\"result\":11\x7d\n"
    ∧ Send { ID := 0, Result := ResultValue.raw "11", Error := "" }
        = some (sendJSON 0 "11")
    ∧ some (sendJSON 0 "11")
        ≠ encodeResponse
            { ID := 0, Result := ResultValue.raw "11", Error := "" } := by
  refine ⟨?_, ?_, ?_, ?_⟩ <;> decide

/-- Claim C3 is false on the code: handleRequest stores only the message
string of a handler error in the string-typed Error field of Response, so
a structured error with code 3, message boom and data 8 is emitted as a
bare string frame, not as the structured error object the claim (and the
spec error-frame shape) requires; with a nil handler error the result is
emitted as a success response. -/
theorem handleRequest_string_error_eval :
    handleRequest
        (fun _ _ => (ResultValue.null,
          some (GoError.rpcError
            { Code := 3, Message := "boom", Data := some "8" })))
        { Method := "m", Params := "[]", ID := 1 }
      = some "\x7b\"id\":1,\"error\":\"boom\"\x7d\n"
    ∧ handleRequest
        (fun _ _ => (ResultValue.null,
          some (GoError.rpcError
            { Code := 3, Message := "boom", Data := some "8" })))
        { Method := "m", Params := "[]", ID := 1 }
      ≠ some (specErrorFrame 1
          { Code := 3, Message := "boom", Data := some "8" })
    ∧ handleRequest (fun _ _ => (ResultValue.num 11, none))
        { Method := "add", Params := "[5,6]", ID := 0 }
      = some "\x7b\"id\":0,\"result\":11\x7d\n" := by
  refine ⟨?_, ?_, ?_⟩ <;> decide

/-- Claim C8 is false on the code: Send with an empty pre-encoded payload
takes the fast path and splices the empty payload verbatim, emitting a
frame with nothing after the result separator instead of substituting the
literal null. -/
theorem send_empty_raw_eval :
    Send { ID := 5, Result := ResultValue.raw "", Error := "" }
      = some "(\"id\":5,\"result\":\x7d"
    ∧ Send { ID := 5, Result := ResultValue.raw "", Error := "" }
      ≠ some "(\"id\":5,\"result\":null\x7d" := by
  refine ⟨?_, ?_⟩ <;> decide

end Jsonrpc
